import Mathlib

/-!
Shallow embedding of the livecodingtv-bot chat client (`src/Client.js`) and
proofs about its stanza-normalization, rate-limit and dedup logic.

The persistent store (`node-persist`, the "brain") is modelled as a record
with one field per store key the client touches: the `messages` dedup map,
the `userMessages` rate-limit map, and the generic settings keys (of which
only `leaderboard` is ever consumed).  JavaScript objects used as maps are
modelled as functions `String → Option _` (a JS object holds at most one
value per key).  JS numbers holding epoch milliseconds are modelled as `Int`.
JS record fields that may be absent (`undefined`) are modelled as `Option`.
A JS `TypeError` fault (reading a property of `null`/`undefined`) is
modelled by returning `none` from the embedded operation.
-/

namespace Lctv

/-- A send record as built in `Client.sendMessage`:
`{ message: msg, time: new Date().getTime() }`. -/
structure SendRec where
  message : String
  time : Int
deriving DecidableEq, Repr

/-- A user record in the `userMessages` map.  `Client.parseMessage` writes
`{ time: now }` (no `lastCommandTime` field), while
`Client.updateLatestCommandLog` sets the `lastCommandTime` field on an
existing record.  Both fields are therefore optional, mirroring JS
`undefined` for an absent field. -/
structure UserRec where
  time : Option Int
  lastCommandTime : Option Int
deriving DecidableEq, Repr

/-- An arbitrary leaderboard user record (an untyped JS object; its shape is
irrelevant to every claim, only presence/absence matters). -/
def JsObj : Type := List (String × String)

instance : DecidableEq JsObj := by unfold JsObj; infer_instance

/-- The value stored under the `leaderboard` settings key: a JS object
mapping username to a user record. -/
def Leaderboard : Type := String → Option JsObj

/-- The persistent store.  Each field is the value held under the
corresponding `node-persist` key (`messages`, `userMessages`, and the
remaining settings keys such as `leaderboard`); a `fun _ => none` field
models a key that was never written. -/
structure Brain where
  messages : String → Option SendRec
  userMessages : String → Option UserRec
  settings : String → Option Leaderboard

/-- A brain in which nothing has ever been stored. -/
def brain0 : Brain :=
  { messages := fun _ => none
    userMessages := fun _ => none
    settings := fun _ => none }

/-- Modelled from the spec: the external crypto library's MD5 content hash
used as the dedup key in `Client.sendMessage`.  The spec requires of it only
a fixed digest with low collision probability for short chat strings
("cryptographic strength is not required"), so it is modelled as an
injective key function on message texts. -/
def md5 (s : String) : String := s

/-- Outcome of one `Client.sendMessage` call: whether the transport `send`
was invoked, the JS return value (`false` in debug mode, `undefined`
otherwise), and the store afterwards. -/
structure SendOutcome where
  sent : Bool
  returned : Option Bool
  brain : Brain

/-- `Client.sendMessage` (src/Client.js lines 56-94).  In debug mode it logs
and returns `false` before touching the store.  Otherwise it loads the
`messages` map, looks up the MD5 hash of the text, sends iff there is no
previous record or the time difference exceeds 5000 ms, and always
overwrites the record for this hash with `{ message, time: now }` before
persisting the map back. -/
def sendMessage (debug : Bool) (brain : Brain) (msg : String) (now : Int) : SendOutcome :=
  if debug then
    { sent := false, returned := some false, brain := brain }
  else
    let messages := brain.messages
    let hash := md5 msg
    let previousMessage := messages hash
    let messageObj : SendRec := { message := msg, time := now }
    let sent : Bool :=
      match previousMessage with
      | none => true
      | some prev => decide (messageObj.time - prev.time > 5000)
    { sent := sent
      returned := none
      brain := { brain with
                  messages := fun h => if h = hash then some messageObj else messages h } }

/-- An XML stanza node as delivered by the transport library: either a named
element with attributes and ordered children, or a bare text fragment. -/
inductive Node where
  | elem (name : String) (attrs : List (String × String)) (children : List Node)
  | text (s : String)
deriving Repr

/-- JS `child.name`: a text fragment (a JS string) has no `name` property
(`undefined`), an element has its tag name. -/
def Node.nameOf : Node → Option String
  | .elem n _ _ => some n
  | .text _ => none

/-- JS `node.attrs` (a text fragment has none). -/
def Node.attrsOf : Node → List (String × String)
  | .elem _ attrs _ => attrs
  | .text _ => []

/-- JS `node.children` (a text fragment has none). -/
def Node.childrenOf : Node → List Node
  | .elem _ _ cs => cs
  | .text _ => []

/-- Attribute lookup on a JS `attrs` object: at most one value per name. -/
def getAttr (k : String) : List (String × String) → Option String
  | [] => none
  | (a, v) :: rest => if a = k then some v else getAttr k rest

/-- `Client.findChild` (src/Client.js lines 234-244): linear scan over the
children, first child whose `name` equals the requested name wins (`null`
when there is none).  A text child has `name === undefined` and never
matches. -/
def findChild (name : String) : List Node → Option Node
  | [] => none
  | c :: cs => if c.nameOf = some name then some c else findChild name cs

/-- JS coerces each array element to a string when `join`-ing.  A text
fragment is already a string; an element child would serialize to its XML
text via the transport library, which no claim exercises (a message body's
children are text fragments), so its serialization is kept schematic. -/
def nodeToJsString : Node → String
  | .text s => s
  | .elem n _ _ => "<" ++ n ++ "/>"

/-- `body.children.join('')`: concatenate the stringified children. -/
def joinChildren (cs : List Node) : String :=
  String.join (cs.map nodeToJsString)

/-- Index of the first occurrence of a character in a list, if any. -/
def charIdx (c : Char) : List Char → Option Nat
  | [] => none
  | a :: as => if a = c then some 0 else (charIdx c as).map (· + 1)

/-- JS `String.prototype.indexOf` for a single-character needle: index of
the first occurrence, `-1` when absent. -/
def jsIndexOf (s : String) (c : Char) : Int :=
  match charIdx c s.toList with
  | some i => (i : Int)
  | none => -1

/-- JS `String.prototype.substr(start)` (no length argument): the suffix
starting at `start`; a negative `start` counts from the end, clamped at 0. -/
def jsSubstr (s : String) (start : Int) : String :=
  let len : Int := (s.length : Int)
  let b : Int := if start < 0 then max (len + start) 0 else start
  String.mk (s.toList.drop b.toNat)

/-- Does the pattern occur as a prefix of the list? -/
def startsWith : List Char → List Char → Bool
  | [], _ => true
  | _ :: _, [] => false
  | p :: ps, c :: cs => p == c && startsWith ps cs

/-- JS `String.prototype.replace(pattern, replacement)` with a string
pattern replaces only the FIRST occurrence of the pattern. -/
def listReplaceFirst (pat repl : List Char) : List Char → List Char
  | [] => if startsWith pat [] then repl else []
  | c :: cs =>
      if startsWith pat (c :: cs) then repl ++ List.drop pat.length (c :: cs)
      else c :: listReplaceFirst pat repl cs

/-- JS `s.replace(pat, repl)` on strings (first occurrence only). -/
def jsReplaceFirst (s pat repl : String) : String :=
  String.mk (listReplaceFirst pat.toList repl.toList s.toList)

/-- `Client.parseFromUsername` (src/Client.js lines 210-213):
`fromJid.substr(fromJid.indexOf('/') + 1)`.  `none` models the JS
`TypeError` of calling `.substr` on an absent `from` attribute. -/
def parseFromUsername (stanza : Node) : Option String :=
  (getAttr "from" stanza.attrsOf).map fun fromJid =>
    jsSubstr fromJid (jsIndexOf fromJid '/' + 1)

/-- The normalized event returned by `Client.parseMessage`. -/
structure ParsedMessage where
  type : String
  fromUsername : String
  message : String
  rateLimited : Bool
deriving DecidableEq, Repr

/-- `Client.parseMessage` (src/Client.js lines 162-190).  Extracts the
sender nickname and the body text (children joined, then
`.replace('\x5c\x5c', '')`, which strips only the first backslash), loads the
`userMessages` map, reads `lastCommandTime` of the user's record (`0` when
the record or the field is absent), sets `rateLimited` iff that time is
positive and less than 5000 ms before `now`, then overwrites the user's
record with `{ time: now }` — a record WITHOUT a `lastCommandTime` field —
and persists the map.  `none` models the JS `TypeError` paths (missing
`from` attribute, or `body.children` on a missing body child). -/
def parseMessage (brain : Brain) (stanza : Node) (now : Int) : Option (ParsedMessage × Brain) :=
  match parseFromUsername stanza with
  | none => none
  | some fromUsername =>
    match findChild "body" stanza.childrenOf with
    | none => none
    | some body =>
      let message := jsReplaceFirst (joinChildren body.childrenOf) "\\" ""
      let messages := brain.userMessages
      let userMessageLog := messages fromUsername
      let lastCommandTime : Int :=
        match userMessageLog with
        | none => 0
        | some r => r.lastCommandTime.getD 0
      let messageObj : UserRec := { time := some now, lastCommandTime := none }
      let rateLimited : Bool := decide (lastCommandTime > 0 ∧ now - lastCommandTime < 5000)
      some ({ type := "message", fromUsername := fromUsername,
              message := message, rateLimited := rateLimited },
            { brain with
                userMessages := fun u => if u = fromUsername then some messageObj else messages u })

/-- `Client.updateLatestCommandLog` (src/Client.js lines 220-226).  Loads
the `userMessages` map and takes `messages[fromUsername] || {}`.  When the
user already has a record, that record is aliased by the map, so setting
`lastCommandTime` on it mutates the map before it is persisted.  When the
user has no record, the freshly created `{}` is mutated but never inserted
into the map, so the map is persisted unchanged. -/
def updateLatestCommandLog (brain : Brain) (fromUsername : String) (now : Int) : Brain :=
  match brain.userMessages fromUsername with
  | some rec =>
      { brain with
          userMessages := fun u =>
            if u = fromUsername then some { rec with lastCommandTime := some now }
            else brain.userMessages u }
  | none => brain

/-- `Client.getSetting` (src/Client.js lines 132-134):
`brain.getItemSync(key) || null`.  A stored settings object is truthy, so
this is the raw lookup with `null` (`none`) for an absent key. -/
def getSetting (brain : Brain) (key : String) : Option Leaderboard :=
  brain.settings key

/-- `Client.getUser` (src/Client.js lines 122-125):
`this.getSetting('leaderboard')[username] || {}`.  When the setting is
`null`, indexing it throws a `TypeError`, modelled as `none`; otherwise the
user's record, or the empty object when absent. -/
def getUser (brain : Brain) (username : String) : Option JsObj :=
  match getSetting brain "leaderboard" with
  | none => none
  | some lb => some ((lb username).getD [])

/-- Specification-side formulation: the input with the FIRST backslash
removed and everything else kept. -/
def stripFirstBackslashL : List Char → List Char
  | [] => []
  | c :: cs => if c = '\\' then cs else c :: stripFirstBackslashL cs

/-- `stripFirstBackslashL` on strings. -/
def stripFirstBackslash (s : String) : String :=
  String.mk (stripFirstBackslashL s.toList)

/-- Specification-side formulation: the input with EVERY backslash removed
(the spec's wording for the body transformation). -/
def removeAllBackslashes (s : String) : String :=
  String.mk (s.toList.filter (fun c => c != '\\'))

/-- Specification-side formulation: the substring after the LAST '/'
(the spec's wording for nickname extraction). -/
def afterLastSlash (s : String) : String :=
  String.mk ((s.toList.reverse.takeWhile (fun c => c != '/')).reverse)

/-- Specification-side formulation: the substring after the FIRST '/'. -/
def afterFirstSlashL : List Char → List Char
  | [] => []
  | c :: cs => if c = '/' then cs else afterFirstSlashL cs

/-- `afterFirstSlashL` on strings. -/
def afterFirstSlash (s : String) : String :=
  String.mk (afterFirstSlashL s.toList)

/-- A well-formed message stanza from `alice` with body text `hello`. -/
def stanzaAlice : Node :=
  .elem "message" [("from", "room@conf.example.com/alice")]
    [ .elem "body" [] [ .text "hello" ] ]

/-- A message stanza whose body text fragments are two single backslashes. -/
def stanzaBackslashes : Node :=
  .elem "message" [("from", "r@h/alice")]
    [ .elem "body" [] [ .text "\\", .text "\\" ] ]

/-- A message stanza whose sender address contains two slashes. -/
def stanzaNested : Node :=
  .elem "message" [("from", "room@h/a/b")]
    [ .elem "body" [] [ .text "x" ] ]

/-- A brain whose `userMessages` map holds one record, for user `bob`. -/
def brainWithBob : Brain :=
  { brain0 with
      userMessages := fun u =>
        if u = "bob" then some { time := some 1, lastCommandTime := none } else none }

/- ------------------------------------------------------------------ -/
/- Helper lemmas                                                      -/
/- ------------------------------------------------------------------ -/

/-- The code's `.replace('\x5c\x5c', '')` call removes exactly the first
backslash of its input. -/
theorem listReplaceFirst_backslash (l : List Char) :
    listReplaceFirst ['\\'] [] l = stripFirstBackslashL l := by
  induction l with
  | nil => rfl
  | cons c cs ih =>
      by_cases h : c = '\\'
      · subst h
        simp [listReplaceFirst, startsWith, stripFirstBackslashL]
      · have h' : ('\\' == c) = false := by
          simp [beq_iff_eq]
          exact fun e => h e.symm
        simp [listReplaceFirst, startsWith, stripFirstBackslashL, h, h', ih]

/-- String-level version of `listReplaceFirst_backslash`. -/
theorem jsReplaceFirst_backslash (s : String) :
    jsReplaceFirst s "\\" "" = stripFirstBackslash s := by
  have h1 : "\\".toList = ['\\'] := by decide
  have h2 : "".toList = ([] : List Char) := by decide
  simp [jsReplaceFirst, stripFirstBackslash, h1, h2, listReplaceFirst_backslash]

/-- Joining a body whose children are all text fragments concatenates the
fragments. -/
theorem joinChildren_texts (texts : List String) :
    joinChildren (texts.map Node.text) = String.join texts := by
  have h : List.map (nodeToJsString ∘ Node.text) texts = texts := by
    induction texts with
    | nil => rfl
    | cons t ts ih => simp [nodeToJsString, ih]
  simp [joinChildren, List.map_map, h]

/-- Dropping past the first '/' of a list containing one: the code's
`indexOf`-then-`drop` agrees with the structural `afterFirstSlashL`. -/
theorem drop_charIdx_slash (l : List Char) (h : '/' ∈ l) :
    ∃ i, charIdx '/' l = some i ∧ l.drop (i + 1) = afterFirstSlashL l := by
  induction l with
  | nil => cases h
  | cons c cs ih =>
      by_cases hc : c = '/'
      · subst hc
        exact ⟨0, by simp [charIdx, afterFirstSlashL]⟩
      · have hcs : '/' ∈ cs := by
          cases h with
          | head => exact absurd rfl hc
          | tail _ hmem => exact hmem
        obtain ⟨i, hidx, hdrop⟩ := ih hcs
        refine ⟨i + 1, ?_, ?_⟩
        · simp [charIdx, hc, hidx]
        · simpa [afterFirstSlashL, hc] using hdrop

/- ------------------------------------------------------------------ -/
/- Claim theorems                                                     -/
/- ------------------------------------------------------------------ -/

/-- C1: evaluating the code at the failing input.  Parsing a message stanza
from `alice` at `now = 1000` does overwrite her `userMessages` entry and
persist the map — but the stored record is `{ time: 1000 }`: its
`lastCommandTime` field, the one the next rate-limit check consults, is
absent (`none`), not `1000` as the claim states. -/
theorem parseMessage_stamp_misses_consulted_field :
    (parseMessage brain0 stanzaAlice 1000).map (fun p => p.2.userMessages "alice")
      = some (some { time := some 1000, lastCommandTime := none }) := by decide

/-- C2: evaluating the code at the failing input.  A stanza from `alice`
parsed at `T1 = 1000` and again at `T2 = 2000` (difference 1000 ms, well
inside the 5000 ms window, no other calls in between) reports
`rateLimited = false` on the second parse, because the first parse stored
the field `time` while the check reads `lastCommandTime`.  The claim says
it must be `true`. -/
theorem second_parse_within_window_not_rateLimited :
    ((parseMessage brain0 stanzaAlice 1000).bind fun p =>
        parseMessage p.2 stanzaAlice 2000).map (fun p => p.1.rateLimited)
      = some false := by decide

/-- C3 counterexample: calling `updateLatestCommandLog` for a user with no
prior record leaves the persisted map without any record for that user —
the freshly created object is mutated but never inserted into the map. -/
theorem updateLatestCommandLog_drops_new_user :
    (updateLatestCommandLog brain0 "bob" 42).userMessages "bob" = none := rfl

/-- C3 (amended): when the user already has a record in the `userMessages`
map, `updateLatestCommandLog` at time `now` leaves the persisted map
containing that user's record with `lastCommandTime = now` (the existing
record is mutated through the map's alias); when the user has no prior
record, the map is persisted unchanged (see the counterexample). -/
theorem updateLatestCommandLog_restamps_existing_user
    (brain : Brain) (u : String) (now : Int) (r : UserRec)
    (h : brain.userMessages u = some r) :
    (updateLatestCommandLog brain u now).userMessages u
      = some { r with lastCommandTime := some now } := by
  simp [updateLatestCommandLog, h]

/-- C3 witness: the amended theorem applied to a brain that already holds a
record for `bob`. -/
theorem updateLatestCommandLog_restamps_existing_user_witness :
    brainWithBob.userMessages "bob" = some { time := some 1, lastCommandTime := none } ∧
    (updateLatestCommandLog brainWithBob "bob" 42).userMessages "bob"
      = some { time := some 1, lastCommandTime := some 42 } :=
  ⟨by decide,
   updateLatestCommandLog_restamps_existing_user brainWithBob "bob" 42
     { time := some 1, lastCommandTime := none } (by decide)⟩

/-- C4 counterexample: a body whose text fragments are two backslashes
(concatenating to `S = "\x5c\x5c"`) parses to `"\x5c"` — only the first
backslash is removed — while the claim demands `S` with every backslash
removed, i.e. the empty string. -/
theorem parseMessage_keeps_later_backslashes :
    (parseMessage brain0 stanzaBackslashes 5).map (fun p => p.1.message) = some "\\" ∧
    removeAllBackslashes (String.join [ "\\", "\\" ]) = "" ∧
    (parseMessage brain0 stanzaBackslashes 5).map (fun p => p.1.message)
      ≠ some (removeAllBackslashes (String.join [ "\\", "\\" ])) := by
  refine ⟨by decide, by decide, by decide⟩

/-- C4 (amended): for every message stanza with a `from` attribute whose
body child's text fragments concatenate (in order) to a string `S`, the
parsed body equals `S` with only the FIRST backslash character removed
(JS `String.replace` with a string pattern replaces a single occurrence);
later backslashes are kept, and no other transformation is applied. -/
theorem parseMessage_strips_first_backslash_only
    (brain : Brain) (now : Int) (attrs battrs : List (String × String))
    (kids : List Node) (texts : List String) (f : String)
    (hfrom : getAttr "from" attrs = some f)
    (hbody : findChild "body" kids = some (Node.elem "body" battrs (texts.map Node.text))) :
    (parseMessage brain (Node.elem "message" attrs kids) now).map (fun p => p.1.message)
      = some (stripFirstBackslash (String.join texts)) := by
  simp [parseMessage, parseFromUsername, Node.attrsOf, Node.childrenOf, hfrom, hbody,
        joinChildren_texts, jsReplaceFirst_backslash]

/-- C4 witness: the amended theorem applied to the spec's own scenario,
fragments `["he", "llo\x5cworld"]`. -/
theorem parseMessage_strips_first_backslash_only_witness :
    getAttr "from" [("from", "r@h/alice")] = some "r@h/alice" ∧
    findChild "body" [ Node.elem "body" [] ([ "he", "llo\\world" ].map Node.text) ]
      = some (Node.elem "body" [] ([ "he", "llo\\world" ].map Node.text)) ∧
    (parseMessage brain0
        (Node.elem "message" [("from", "r@h/alice")]
          [ Node.elem "body" [] ([ "he", "llo\\world" ].map Node.text) ]) 7).map
        (fun p => p.1.message)
      = some (stripFirstBackslash (String.join [ "he", "llo\\world" ])) :=
  ⟨by decide, rfl,
   parseMessage_strips_first_backslash_only brain0 7 [("from", "r@h/alice")] []
     [ Node.elem "body" [] ([ "he", "llo\\world" ].map Node.text) ]
     [ "he", "llo\\world" ] "r@h/alice" (by decide) rfl⟩

/-- C5 counterexample: for the sender address `"room@h/a/b"` (which contains
a '/'), the code extracts the substring after the FIRST '/', `"a/b"`, not
the substring after the last '/', `"b"`, as the claim states. -/
theorem fromUsername_not_after_last_slash :
    '/' ∈ "room@h/a/b".toList ∧
    parseFromUsername stanzaNested = some "a/b" ∧
    afterLastSlash "room@h/a/b" = "b" ∧
    parseFromUsername stanzaNested ≠ some (afterLastSlash "room@h/a/b") := by
  refine ⟨by decide, by decide, by decide, by decide⟩

/-- C5 (amended): for every stanza whose `from` attribute contains at least
one '/', the extracted `fromUsername` equals the substring of the `from`
address after the FIRST '/'. -/
theorem parseFromUsername_after_first_slash
    (name : String) (attrs : List (String × String)) (kids : List Node) (fromJid : String)
    (hfrom : getAttr "from" attrs = some fromJid)
    (hslash : '/' ∈ fromJid.toList) :
    parseFromUsername (Node.elem name attrs kids) = some (afterFirstSlash fromJid) := by
  obtain ⟨i, hidx, hdrop⟩ := drop_charIdx_slash fromJid.toList hslash
  have hneg : ¬ ((i : Int) + 1 < 0) := by omega
  have htn : ((i : Int) + 1).toNat = i + 1 := by omega
  have hidx2 : charIdx '/' fromJid.data = some i := hidx
  have hdrop2 : List.drop (i + 1) fromJid.data = afterFirstSlashL fromJid.data := hdrop
  simp [parseFromUsername, Node.attrsOf, hfrom, jsIndexOf, hidx2, jsSubstr,
        afterFirstSlash, hneg, htn, hdrop2]

/-- C5 witness: the amended theorem applied to the spec's round-trip
example `"room@conf.example.com/alice"`. -/
theorem parseFromUsername_after_first_slash_witness :
    getAttr "from" [("from", "room@conf.example.com/alice")]
      = some "room@conf.example.com/alice" ∧
    '/' ∈ "room@conf.example.com/alice".toList ∧
    parseFromUsername stanzaAlice = some (afterFirstSlash "room@conf.example.com/alice") :=
  ⟨by decide, by decide,
   parseFromUsername_after_first_slash "message"
     [("from", "room@conf.example.com/alice")]
     [ Node.elem "body" [] [ Node.text "hello" ] ]
     "room@conf.example.com/alice" (by decide) (by decide)⟩

/-- C6: in non-debug mode, after `sendMessage S` at `T1`, a second
`sendMessage S` at `T2 > T1` is suppressed (no transport send) iff
`T2 - T1 ≤ 5000` ms; and a `sendMessage` of a different text that has no
record of its own is never suppressed by `S`'s record. -/
theorem sendMessage_dedup_window (brain : Brain) (S T : String) (T1 T2 : Int)
    (h12 : T1 < T2) (hne : T ≠ S) (hfresh : brain.messages (md5 T) = none) :
    ((sendMessage false (sendMessage false brain S T1).brain S T2).sent = false
        ↔ T2 - T1 ≤ 5000)
    ∧ (sendMessage false (sendMessage false brain S T1).brain T T2).sent = true := by
  constructor
  · simp [sendMessage, md5]
  · have hfresh2 : brain.messages T = none := hfresh
    simp [sendMessage, md5, hne, hfresh2]

/-- C6 witness: the dedup-window theorem applied at `S = "a"`, `T = "b"`,
`T1 = 0`, `T2 = 1` on the empty brain. -/
theorem sendMessage_dedup_window_witness :
    (0 : Int) < 1 ∧ ("b" : String) ≠ "a" ∧ brain0.messages (md5 "b") = none ∧
    (((sendMessage false (sendMessage false brain0 "a" 0).brain "a" 1).sent = false
        ↔ (1 : Int) - 0 ≤ 5000)
      ∧ (sendMessage false (sendMessage false brain0 "a" 0).brain "b" 1).sent = true) :=
  ⟨by decide, by decide, rfl,
   sendMessage_dedup_window brain0 "a" "b" 0 1 (by decide) (by decide) rfl⟩

/-- C7 counterexample: starting from the empty store and sending `"hi"` at
t=0, t=4000 and t=9000, the third send does NOT go through: the suppressed
send at t=4000 overwrote the record's timestamp to 4000, and
9000 - 4000 = 5000 is not strictly greater than 5000, so the code skips the
transport send — the claim says it goes through. -/
theorem third_send_at_9000_is_suppressed :
    (sendMessage false (sendMessage false (sendMessage false brain0 "hi" 0).brain
        "hi" 4000).brain "hi" 9000).sent = false := by decide

/-- C7 (amended): from the empty store, sending `"hi"` at t=0 goes through,
the send at t=4000 is suppressed, and the send at t=9000 is ALSO suppressed
(the suppressed send reset the record's timestamp to 4000 and
9000 - 4000 = 5000 is not > 5000); afterwards the record for `"hi"` has
timestamp 9000.  One millisecond later, at t=9001, a third send would have
gone through. -/
theorem hi_send_scenario_sliding_window :
    (sendMessage false brain0 "hi" 0).sent = true ∧
    (sendMessage false (sendMessage false brain0 "hi" 0).brain "hi" 4000).sent = false ∧
    (sendMessage false (sendMessage false (sendMessage false brain0 "hi" 0).brain
        "hi" 4000).brain "hi" 9000).sent = false ∧
    (sendMessage false (sendMessage false (sendMessage false brain0 "hi" 0).brain
        "hi" 4000).brain "hi" 9000).brain.messages (md5 "hi")
      = some { message := "hi", time := 9000 } ∧
    (sendMessage false (sendMessage false (sendMessage false brain0 "hi" 0).brain
        "hi" 4000).brain "hi" 9001).sent = true := by
  refine ⟨by decide, by decide, by decide, by decide, by decide⟩

/-- C8: in non-debug mode, after every `sendMessage S` at time `now`, the
persisted `messages` map holds under `S`'s content hash exactly the record
`{ message: S, time: now }` (the spec's `{ text, sentAtMillis }`), whether
or not the send was suppressed: the overwrite is unconditional.  The map
model (`String → Option SendRec`) holds at most one record per hash by
construction, matching a JS object's unique keys. -/
theorem sendMessage_always_overwrites_record (brain : Brain) (S : String) (now : Int) :
    (sendMessage false brain S now).brain.messages (md5 S)
      = some { message := S, time := now } := by
  simp [sendMessage]

/-- C9: when nothing was ever stored under the `leaderboard` settings key
(`getSetting` yields `null`), `getUser` faults for every username — the
code indexes into the `null` value (a JS `TypeError`, modelled as `none`)
instead of returning an empty record. -/
theorem getUser_faults_when_leaderboard_unset (brain : Brain)
    (h : getSetting brain "leaderboard" = none) (username : String) :
    getUser brain username = none := by
  simp [getUser, h]

/-- C9 witness: the fault theorem applied to the empty brain and the
username `carol`. -/
theorem getUser_faults_when_leaderboard_unset_witness :
    getSetting brain0 "leaderboard" = none ∧ getUser brain0 "carol" = none :=
  ⟨rfl, getUser_faults_when_leaderboard_unset brain0 rfl "carol"⟩

/-- C10: in debug mode, `sendMessage` returns `false` without invoking the
transport send, and the whole persisted store — the `messages` dedup map
and every other key — is exactly the store it started with: the debug path
exits before any store read or write. -/
theorem sendMessage_debug_is_noop (brain : Brain) (msg : String) (now : Int) :
    sendMessage true brain msg now
      = { sent := false, returned := some false, brain := brain } := rfl

end Lctv
